import Mathlib

/-!
Verification of the `atomiclock_spinlock` crate (src/src/lib.rs): a simple
spinlock `Lock<T>` wrapping the external `atomiclock::AtomicLock<T>` primitive,
with four acquisition strategies (`spin_lock`, `spin_lock_warn`,
`spin_lock_until`, `try_lock`), a scoped `Guard`, and construction/conversion
boilerplate.

The raw primitive lives in the external `atomiclock` crate, absent from this
repository's sources; it is modelled from the spec (§4.1): a two-state atomic
flag (Free/Held) plus the protected value, with a single non-blocking
`try_acquire` (called `lock` at the call sites in lib.rs), a `release`, and an
`into_inner`.

Spin loops are unbounded in the source and their attempt outcomes depend on
concurrent interference, so each loop is embedded as a function of a schedule:
a list whose entries give, per loop iteration, what the iteration observes
(whether the compare-and-swap wins, and for the deadline variant the clock
reading). An empty remainder of the schedule models "the loop is still
spinning"; concurrent mutual exclusion itself is embedded as an interleaved
atomic-step transition system.
-/

namespace AtomiclockSpinlock

/-- Modelled from the spec: the raw `atomiclock::AtomicLock<T>` primitive is an
external module, not part of this repository's sources. Per spec §4.1 it holds
the protected value together with a two-state atomic flag; `held = true` models
the Held state and `held = false` models Free. -/
structure AtomicLock (T : Type) where
  held : Bool
  data : T
deriving Repr, DecidableEq

/-- Modelled from the spec: construction stores the initial value with the flag
Free (a freshly created lock can be acquired). -/
def AtomicLock.new {T : Type} (data : T) : AtomicLock T :=
  { held := false, data := data }

/-- Modelled from the spec: the single non-blocking acquisition primitive
(spec §4.1 `try_acquire`; invoked as `self.lock.lock()` in lib.rs). It
atomically checks the flag: if Free it sets it Held and returns the access
token, modelled as the updated state; if already Held it returns nothing and
changes nothing. -/
def AtomicLock.lock {T : Type} (s : AtomicLock T) : Option (AtomicLock T) :=
  if s.held then none else some { s with held := true }

/-- Modelled from the spec: `release` atomically sets the flag back to Free;
it is what the inner guard's drop performs. -/
def AtomicLock.release {T : Type} (s : AtomicLock T) : AtomicLock T :=
  { s with held := false }

/-- Modelled from the spec: `into_inner` consumes the primitive, returning the
contained value with no atomic check. -/
def AtomicLock.into_inner {T : Type} (s : AtomicLock T) : T :=
  s.data

/-- `Lock<T>` from src/src/lib.rs: wraps `atomiclock::AtomicLock<T>` in a field
named `lock`. -/
structure Lock (T : Type) where
  lock : AtomicLock T
deriving Repr, DecidableEq

/-- `Guard<'a, T>` from src/src/lib.rs: wraps the inner atomiclock guard, which
grants access to the protected data (via `Deref`/`DerefMut`/`as_ref`/`as_mut`).
The embedding records the data the guard gives access to. -/
structure Guard (T : Type) where
  data : T
deriving Repr, DecidableEq

/-- `Lock::new` from src/src/lib.rs lines 40-44: wraps `AtomicLock::new`. -/
def Lock.new {T : Type} (data : T) : Lock T :=
  { lock := AtomicLock.new data }

/-- `Lock::into_inner` from src/src/lib.rs lines 111-113: forwards to the
primitive's `into_inner`. -/
def Lock.into_inner {T : Type} (l : Lock T) : T :=
  l.lock.into_inner

/-- `Lock::try_lock` from src/src/lib.rs lines 101-106: one call to the
primitive's `lock`; `None` maps to `None`, `Some(guard)` to `Some(Guard(guard))`.
State-passing embedding: the result together with the lock's resulting state. -/
def Lock.try_lock {T : Type} (l : Lock T) : Option (Guard T) × Lock T :=
  match AtomicLock.lock l.lock with
  | none => (none, l)
  | some s => (some { data := s.data }, { lock := s })

/-- Dropping a `Guard` (lib.rs line 34: "drop - we forward to the atomiclock
implementation") releases the primitive: the lock's flag returns to Free. -/
def Guard.drop {T : Type} (l : Lock T) : Lock T :=
  { lock := AtomicLock.release l.lock }

/-- `Lock::spin_lock` from src/src/lib.rs lines 49-57, run against a schedule
of attempt outcomes: entry `i` of `attempts` tells whether the i-th call to the
primitive's `lock` wins the compare-and-swap. The source loop is unbounded;
here the schedule is the fuel, and `none` means the loop is still spinning
after consuming the whole schedule. A result `some i` means the call returned
a guard obtained from the successful acquisition at attempt `i`. -/
def spinLoopRun : List Bool → Option Nat
  | [] => none
  | a :: rest => if a then some 0 else (spinLoopRun rest).map Nat.succ

/-- Telemetry events observable by the logwise collaborator: opening and
closing of `PerfwarnInterval`s, identified by creation order. -/
inductive TelemetryEvent
  | ivOpen : Nat → TelemetryEvent
  | ivClose : Nat → TelemetryEvent
deriving Repr, DecidableEq

/-- The drop events produced by dropping the current contents of the `_warn`
variable: dropping `Some(interval)` closes that interval, dropping `None`
produces nothing. -/
def closeEvents : Option Nat → List TelemetryEvent
  | none => []
  | some i => [TelemetryEvent.ivClose i]

/-- The loop of `Lock::spin_lock_warn` from src/src/lib.rs lines 67-80, run
against a schedule of attempt outcomes. `cur` is the interval currently stored
in `_warn` (`none` models both the initially uninitialized variable and a
stored `None`), `next` is the next fresh interval id. On a failed attempt the
source executes `_warn = Some(perfwarn_begin!(..))`: per Rust assignment
semantics the right-hand side is evaluated first (opening a new interval) and
the old contents of the place are dropped afterwards (closing the previously
stored interval, if any). On a successful attempt the source executes
`_warn = None` (dropping and thereby closing any stored interval) and returns
the guard. Returns the telemetry event log in order, and whether a guard was
obtained within the schedule. -/
def warnLoop : List Bool → Option Nat → Nat → List TelemetryEvent × Bool
  | [], _, _ => ([], false)
  | a :: rest, cur, next =>
    if a then
      (closeEvents cur, true)
    else
      let r := warnLoop rest (some next) (next + 1)
      (TelemetryEvent.ivOpen next :: closeEvents cur ++ r.1, r.2)

/-- `Lock::spin_lock_warn` from src/src/lib.rs lines 67-80: the warn loop
started with `_warn` unset and no interval yet created. -/
def spinLockWarnRun (attempts : List Bool) : List TelemetryEvent × Bool :=
  warnLoop attempts none 0

/-- Number of interval-opening events in a telemetry log. -/
def countOpens (E : List TelemetryEvent) : Nat :=
  E.countP fun e => match e with | .ivOpen _ => true | .ivClose _ => false

/-- Number of times interval `i` is opened in a telemetry log. -/
def openCount (i : Nat) (E : List TelemetryEvent) : Nat :=
  E.countP fun e => match e with | .ivOpen j => j == i | .ivClose _ => false

/-- Number of times interval `i` is closed in a telemetry log. -/
def closeCount (i : Nat) (E : List TelemetryEvent) : Nat :=
  E.countP fun e => match e with | .ivOpen _ => false | .ivClose j => j == i

/-- Result of a `spin_lock_until` run: the call returned a guard, the call
returned `None` at the deadline check, or the schedule ended with the loop
still spinning. -/
inductive UntilResult
  | acquired
  | timedOut
  | spinning
deriving Repr, DecidableEq

/-- `Lock::spin_lock_until` from src/src/lib.rs lines 85-96, run against a
schedule giving, per iteration, the observed clock reading `now` (instants are
modelled as naturals) and the outcome of the acquisition attempt. Each
iteration first compares `Instant::now() > deadline` and returns `None`
(timedOut) when it holds; only otherwise does it attempt `self.lock.lock()`. -/
def untilRun (deadline : Nat) : List (Nat × Bool) → UntilResult
  | [] => UntilResult.spinning
  | (now, a) :: rest =>
    if deadline < now then UntilResult.timedOut
    else if a then UntilResult.acquired
    else untilRun deadline rest

/-- `Lock::spin_lock_until` from src/src/lib.rs lines 85-96, threading the lock
state (no external interference within the run): each iteration reads the
clock from the schedule list, checks the deadline, and only then calls the
primitive's `lock`. Result: `none` = still spinning (schedule exhausted),
`some none` = returned `None` at the deadline check, `some (some g)` = returned
a guard; paired with the lock's final state. -/
def untilRunSt {T : Type} (deadline : Nat) :
    List Nat → Lock T → Option (Option (Guard T)) × Lock T
  | [], l => (none, l)
  | now :: rest, l =>
    if deadline < now then (some none, l)
    else
      match AtomicLock.lock l.lock with
      | none => untilRunSt deadline rest l
      | some s => (some (some { data := s.data }), { lock := s })

/-- `impl From<&'a Lock<T>> for Guard<'a, T>` from src/src/lib.rs lines
150-157: `from(lock)` is `lock.spin_lock()`, i.e. the same unbounded spin loop
run on the same schedule of attempt outcomes. -/
def guardFromLock (attempts : List Bool) : Option Nat :=
  spinLoopRun attempts

/-- `impl From<T> for Lock<T>` from src/src/lib.rs lines 138-142: `from(data)`
is `Lock::new(data)`. -/
def Lock.fromValue {T : Type} (data : T) : Lock T :=
  Lock.new data

/-- `impl Default for Lock<T>` from src/src/lib.rs lines 133-137: `default()`
is `Lock::new(Default::default())`; the argument `d` stands for the value
`T::default()`. -/
def Lock.defaultLock {T : Type} (d : T) : Lock T :=
  Lock.new d

/-- Modelled from the spec: the global state of one lock under concurrent use —
the atomic flag together with the number of live guards (outstanding access
tokens). -/
structure SysState where
  held : Bool
  guards : Nat
deriving Repr, DecidableEq

/-- Modelled from the spec: the indivisible steps permitted by the atomic
compare-and-swap of spec §4.1, interleaved arbitrarily among concurrent
callers. A successful `try_acquire` (reachable through `spin_lock`,
`spin_lock_warn`, `spin_lock_until` and `try_lock`, which all call the same
primitive) requires the flag Free, sets it Held and creates a live guard; an
attempt against a Held flag fails and changes nothing; `release` is performed
by the holder of a live guard (the dropped guard) and sets the flag Free. -/
inductive SysStep : SysState → SysState → Prop
  | acquire (n : Nat) : SysStep ⟨false, n⟩ ⟨true, n + 1⟩
  | failedAttempt (n : Nat) : SysStep ⟨true, n⟩ ⟨true, n⟩
  | releaseStep (b : Bool) (n : Nat) : SysStep ⟨b, n + 1⟩ ⟨false, n⟩

/-- C1: evaluation of `spin_lock_warn` at the failing schedule. On a call whose
first two acquisition attempts fail and whose third succeeds, the code opens
TWO telemetry intervals — one per failed attempt — rather than exactly one on
the first failed attempt, and the first interval is closed during the second
failed attempt (event `ivClose 0` precedes the success-time events) rather than
at the moment the token is obtained. -/
theorem c1_spin_lock_warn_interval_per_attempt :
    spinLockWarnRun [false, false, true]
      = ([TelemetryEvent.ivOpen 0, TelemetryEvent.ivOpen 1,
          TelemetryEvent.ivClose 0, TelemetryEvent.ivClose 1], true) ∧
    countOpens (spinLockWarnRun [false, false, true]).1 = 2 ∧
    countOpens (spinLockWarnRun [false, false, true]).1 ≠ 1 := by
  refine ⟨rfl, rfl, by decide⟩

/-- C2: mutual exclusion. In the interleaved atomic-step system modelled from
the spec's compare-and-swap semantics, every state reachable from a fresh lock
(flag Free, no guards) has at most one live guard. -/
theorem c2_at_most_one_guard (s : SysState)
    (h : Relation.ReflTransGen SysStep ⟨false, 0⟩ s) : s.guards ≤ 1 := by
  have key : ∀ t : SysState, Relation.ReflTransGen SysStep ⟨false, 0⟩ t →
      t.guards = if t.held then 1 else 0 := by
    intro t ht
    induction ht with
    | refl => simp
    | tail hsteps hstep ih =>
      cases hstep with
      | acquire n => simp at ih ⊢; omega
      | failedAttempt n => simpa using ih
      | releaseStep b n => cases b <;> simp at ih ⊢ <;> omega
  rw [key s h]
  split <;> omega

theorem c2_at_most_one_guard_witness : (SysState.mk true 1).guards ≤ 1 :=
  c2_at_most_one_guard ⟨true, 1⟩ (Relation.ReflTransGen.single (SysStep.acquire 0))

/-- C3: `try_lock` performs exactly one acquisition attempt and returns
immediately in both cases: on a Free lock it returns a guard for the protected
data (the flag becoming Held), on a Held lock it returns nothing and leaves the
lock unchanged; it never retries. -/
theorem c3_try_lock_single_attempt {T : Type} (l : Lock T) :
    (l.lock.held = false →
      Lock.try_lock l
        = (some { data := l.lock.data },
           { lock := { held := true, data := l.lock.data } })) ∧
    (l.lock.held = true → Lock.try_lock l = (none, l)) := by
  constructor <;> intro h <;> simp [Lock.try_lock, AtomicLock.lock, h]

theorem c3_try_lock_single_attempt_witness :
    Lock.try_lock (Lock.new (7 : Nat))
      = (some { data := 7 }, { lock := { held := true, data := 7 } }) ∧
    Lock.try_lock { lock := { held := true, data := (7 : Nat) } }
      = (none, { lock := { held := true, data := 7 } }) :=
  ⟨(c3_try_lock_single_attempt (Lock.new 7)).1 rfl,
   (c3_try_lock_single_attempt { lock := { held := true, data := 7 } }).2 rfl⟩

/-- C4: round trip — `new(v)` immediately followed by `into_inner()` yields
the original value `v`, for every value and every element type. -/
theorem c4_new_into_inner_round_trip {T : Type} (v : T) :
    Lock.into_inner (Lock.new v) = v :=
  rfl

/-- C5: in each iteration of `spin_lock_until` the deadline check precedes the
acquisition attempt: when the observed clock exceeds the deadline the call
returns `None` at once and the lock state is untouched — no token is acquired
even if the lock was Free and the attempt would have succeeded. -/
theorem c5_deadline_checked_before_attempt {T : Type} (deadline now : Nat)
    (rest : List Nat) (l : Lock T) (h : deadline < now) :
    untilRunSt deadline (now :: rest) l = (some none, l) := by
  simp [untilRunSt, h]

theorem c5_deadline_checked_before_attempt_witness :
    untilRunSt 3 [5] (Lock.new (0 : Nat)) = (some none, Lock.new 0) :=
  c5_deadline_checked_before_attempt 3 5 [] (Lock.new 0) (by decide)

/-- C6: when `spin_lock_until` times out (returns `None`), the lock's state is
exactly what it was at entry: the timeout return has no side effects on the
lock — nothing is partially acquired, nothing needs rolling back. -/
theorem c6_timeout_no_side_effects {T : Type} (deadline : Nat) (times : List Nat)
    (l : Lock T) (h : (untilRunSt deadline times l).1 = some none) :
    (untilRunSt deadline times l).2 = l := by
  induction times with
  | nil => simp [untilRunSt] at h
  | cons now rest ih =>
    by_cases hd : deadline < now
    · simp [untilRunSt, hd]
    · simp only [untilRunSt, if_neg hd] at h ⊢
      cases hl : AtomicLock.lock l.lock with
      | none => rw [hl] at h; exact ih h
      | some s => rw [hl] at h; simp at h

theorem c6_timeout_no_side_effects_witness :
    (untilRunSt 3 [1, 5] { lock := { held := true, data := (0 : Nat) } }).2
      = { lock := { held := true, data := 0 } } :=
  c6_timeout_no_side_effects 3 [1, 5] { lock := { held := true, data := 0 } }
    (by decide)

/-- C7: a guard's destruction transitions the lock back to Free (the inner
guard's drop performs the primitive's release), and afterwards a `try_lock` on
the same lock succeeds immediately, returning a guard for the same protected
data. -/
theorem c7_guard_drop_releases {T : Type} (l : Lock T) (h : l.lock.held = true) :
    (Guard.drop l).lock.held = false ∧
    Lock.try_lock (Guard.drop l)
      = (some { data := l.lock.data },
         { lock := { held := true, data := l.lock.data } }) := by
  refine ⟨rfl, ?_⟩
  simp [Guard.drop, AtomicLock.release, Lock.try_lock, AtomicLock.lock]

theorem c7_guard_drop_releases_witness :
    (Guard.drop { lock := { held := true, data := (9 : Nat) } }).lock.held = false ∧
    Lock.try_lock (Guard.drop { lock := { held := true, data := (9 : Nat) } })
      = (some { data := 9 }, { lock := { held := true, data := 9 } }) :=
  c7_guard_drop_releases { lock := { held := true, data := 9 } } rfl

/-- C8: `spin_lock` retries the single non-blocking attempt in an unbounded
loop. Whenever it returns (`some i`), the guard comes from the successful
acquisition at attempt `i` and every earlier attempt had failed — it returns as
soon as a token is obtained and never returns without having acquired; and on
every schedule containing a successful attempt it does return. -/
theorem c8_spin_lock_returns_only_on_success (attempts : List Bool) :
    (∀ i : Nat, spinLoopRun attempts = some i →
      attempts.getD i false = true ∧
        ∀ j : Nat, j < i → attempts.getD j false = false) ∧
    ((∃ i : Nat, attempts.getD i false = true) →
      (spinLoopRun attempts).isSome = true) := by
  induction attempts with
  | nil =>
    constructor
    · intro i h
      simp [spinLoopRun] at h
    · rintro ⟨i, hi⟩
      simp [List.getD] at hi
  | cons a rest ih =>
    cases a with
    | true =>
      refine ⟨?_, ?_⟩
      · intro i h
        simp [spinLoopRun] at h
        subst h
        exact ⟨by simp, fun j hj => by omega⟩
      · intro _
        simp [spinLoopRun]
    | false =>
      refine ⟨?_, ?_⟩
      · intro i h
        cases hr : spinLoopRun rest with
        | none => simp [spinLoopRun, hr] at h
        | some i' =>
          simp [spinLoopRun, hr] at h
          subst h
          refine ⟨by simpa using (ih.1 i' hr).1, ?_⟩
          intro j hj
          cases j with
          | zero => simp
          | succ j' => simpa using (ih.1 i' hr).2 j' (by omega)
      · rintro ⟨i, hi⟩
        cases i with
        | zero => simp at hi
        | succ i' =>
          simp only [List.getD_cons_succ] at hi
          have h2 := ih.2 ⟨i', hi⟩
          cases hr : spinLoopRun rest with
          | none => rw [hr] at h2; simp at h2
          | some k => simp [spinLoopRun, hr]

theorem c8_spin_lock_returns_only_on_success_witness :
    [false, true].getD 1 false = true ∧
      ∀ j : Nat, j < 1 → [false, true].getD j false = false :=
  (c8_spin_lock_returns_only_on_success [false, true]).1 1 rfl

/-- C9: the conversions delegate exactly as the spec says: producing a `Guard`
from a lock reference is the very same spin loop as `spin_lock` (the source's
`From` impl calls `lock.spin_lock()`), producing a `Lock` from a bare value is
`Lock::new` on that value, and the default lock is `Lock::new` applied to the
element type's default value. -/
theorem c9_conversions_delegate {T : Type} (attempts : List Bool) (v d : T) :
    guardFromLock attempts = spinLoopRun attempts ∧
    Lock.fromValue v = Lock.new v ∧
    Lock.defaultLock d = Lock.new d :=
  ⟨rfl, rfl, rfl⟩

/-- C10: the deadline of `spin_lock_until` is inclusive. The loop gives up
exactly when the observed instant is strictly greater than the deadline; when
the observed instant is less than or equal to the deadline — in particular when
it equals the deadline — the acquisition attempt is still made, so a Free lock
is still acquired at that instant. -/
theorem c10_deadline_inclusive (deadline now : Nat) (a : Bool)
    (rest : List (Nat × Bool)) :
    (now ≤ deadline →
      untilRun deadline ((now, a) :: rest)
        = if a then UntilResult.acquired else untilRun deadline rest) ∧
    (deadline < now →
      untilRun deadline ((now, a) :: rest) = UntilResult.timedOut) := by
  constructor
  · intro h
    have hnot : ¬ deadline < now := by omega
    simp [untilRun, hnot]
  · intro h
    simp [untilRun, h]

theorem c10_deadline_inclusive_witness :
    untilRun 5 [(5, true)] = UntilResult.acquired := by
  have := (c10_deadline_inclusive 5 5 true []).1 (by decide)
  simpa using this

end AtomiclockSpinlock
